import Mathlib

/-!
Verification of the reminder persistence and delivery-scheduling subsystem
(src/database.py and src/main.py).

Instants are modelled as integers counting microseconds on the proleptic
Gregorian UTC timeline (microseconds since 0001-01-01 00:00:00), matching the
resolution of Python `datetime` arithmetic.  Stored timestamps are either
textual (what sqlite hands back for TIMESTAMP columns) or native instants,
matching the `isinstance` branch on `remind_time` in `check_reminders`.
-/

/-! ### Calendar arithmetic (proleptic Gregorian, as in Python `datetime`) -/

def isLeap (y : Nat) : Bool :=
  (y % 4 == 0 && y % 100 != 0) || y % 400 == 0

def daysInMonth (y m : Nat) : Nat :=
  if m = 2 then (if isLeap y then 29 else 28)
  else if m = 4 ∨ m = 6 ∨ m = 9 ∨ m = 11 then 30
  else 31

def daysBeforeMonth (y m : Nat) : Nat :=
  (List.range (m - 1)).foldl (fun acc k => acc + daysInMonth y (k + 1)) 0

def daysBeforeYear (y : Nat) : Nat :=
  (y - 1) * 365 + (y - 1) / 4 - (y - 1) / 100 + (y - 1) / 400

/-- Day number of a calendar date, as in Python `date.toordinal`. -/
def toOrdinal (y m d : Nat) : Nat :=
  daysBeforeYear y + daysBeforeMonth y m + d

/-- UTC instant (microseconds on the proleptic Gregorian timeline) of a
calendar date-time. -/
def toInstant (y mo d h mi s us : Nat) : Int :=
  Int.ofNat (((toOrdinal y mo d) * 86400 + h * 3600 + mi * 60 + s) * 1000000 + us)

/-- Microseconds in `m` minutes: the model of `timedelta(minutes=m)`. -/
def minutesUs (m : Int) : Int := m * 60000000

/-! ### Character-level parsing helpers -/

def digitVal (c : Char) : Nat := c.toNat - 48

def eatChar (c : Char) : List Char → Option (List Char)
  | d :: ds => if d = c then some ds else none
  | [] => none

def read2Fixed : List Char → Option (Nat × List Char)
  | a :: b :: rest =>
    if a.isDigit ∧ b.isDigit then some (digitVal a * 10 + digitVal b, rest) else none
  | _ => none

def read4Fixed : List Char → Option (Nat × List Char)
  | a :: b :: c :: d :: rest =>
    if a.isDigit ∧ b.isDigit ∧ c.isDigit ∧ d.isDigit then
      some (((digitVal a * 10 + digitVal b) * 10 + digitVal c) * 10 + digitVal d, rest)
    else none
  | _ => none

/-- One or two digits yielding a value in `[lo, hi]`, two digits preferred,
as the `strptime` field patterns (e.g. `1[0-2]|0[1-9]|[1-9]` for months)
match them. -/
def read12 (lo hi : Nat) : List Char → Option (Nat × List Char)
  | a :: b :: rest =>
    if a.isDigit ∧ b.isDigit ∧ lo ≤ digitVal a * 10 + digitVal b ∧
        digitVal a * 10 + digitVal b ≤ hi then
      some (digitVal a * 10 + digitVal b, rest)
    else if a.isDigit ∧ lo ≤ digitVal a ∧ digitVal a ≤ hi then
      some (digitVal a, b :: rest)
    else none
  | [a] =>
    if a.isDigit ∧ lo ≤ digitVal a ∧ digitVal a ≤ hi then some (digitVal a, []) else none
  | [] => none

/-- Greedily take at most `n` leading digits. -/
def takeDigitsUpTo : Nat → List Char → (List Char × List Char)
  | 0, cs => ([], cs)
  | n + 1, c :: cs =>
    if c.isDigit then
      let p := takeDigitsUpTo n cs
      (c :: p.1, p.2)
    else ([], c :: cs)
  | _ + 1, [] => ([], [])

def digitsToNat (ds : List Char) : Nat :=
  ds.foldl (fun a c => a * 10 + digitVal c) 0

/-- Fractional-seconds field `%f`: one to six digits, scaled to microseconds. -/
def readFrac (cs : List Char) : Option (Nat × List Char) :=
  let p := takeDigitsUpTo 6 cs
  if p.1.isEmpty then none
  else some (digitsToNat p.1 * 10 ^ (6 - p.1.length), p.2)

/-- Offset field `%z`: the letter `Z`, or a sign, two hour digits, optional colon, two minute digits;
the resulting offset must be a valid `timezone` offset (within ±24h). -/
def readOffset : List Char → Option (Int × List Char)
  | 'Z' :: rest => some (0, rest)
  | c :: rest =>
    if c = '+' ∨ c = '-' then
      match read2Fixed rest with
      | some (hh, r1) =>
        let r2 := match r1 with
          | ':' :: r => r
          | _ => r1
        match read2Fixed r2 with
        | some (mm, r3) =>
          if mm ≤ 59 ∧ hh * 60 + mm < 1440 then
            some (if c = '-' then -(Int.ofNat (hh * 60 + mm)) else Int.ofNat (hh * 60 + mm), r3)
          else none
        | none => none
      | none => none
    else none
  | [] => none

/-- Offset as accepted by `fromisoformat`: sign, two hour digits, colon, two minute digits. -/
def readOffsetIso : List Char → Option (Int × List Char)
  | c :: rest =>
    if c = '+' ∨ c = '-' then
      match read2Fixed rest with
      | some (hh, r1) =>
        match r1 with
        | ':' :: r2 =>
          match read2Fixed r2 with
          | some (mm, r3) =>
            if mm ≤ 59 ∧ hh * 60 + mm < 1440 then
              some (if c = '-' then -(Int.ofNat (hh * 60 + mm)) else Int.ofNat (hh * 60 + mm), r3)
            else none
          | none => none
        | _ => none
      | none => none
    else none
  | [] => none

/-- Date part `YYYY-MM-DD` with the `strptime` field patterns (month and day
may be one or two digits) and calendar validity as enforced by the `datetime`
constructor. -/
def parseDateCore (cs : List Char) : Option (Nat × Nat × Nat × List Char) := do
  let (y, r1) ← read4Fixed cs
  let r2 ← eatChar '-' r1
  let (mo, r3) ← read12 1 12 r2
  let r4 ← eatChar '-' r3
  let (d, r5) ← read12 1 31 r4
  if 1 ≤ y ∧ d ≤ daysInMonth y mo then some (y, mo, d, r5) else none

/-! ### The three parse rungs used by `check_reminders` (src/main.py:54-66) -/

/-- Model of `datetime.strptime` with format `%Y-%m-%d %H:%M:%S.%f%z`, as a UTC instant. -/
def strptimeFullZ (s : String) : Option Int := do
  let (y, mo, d, r1) ← parseDateCore s.data
  let r2 ← eatChar ' ' r1
  let (h, r3) ← read12 0 23 r2
  let r4 ← eatChar ':' r3
  let (mi, r5) ← read12 0 59 r4
  let r6 ← eatChar ':' r5
  let (ss, r7) ← read12 0 59 r6
  let r8 ← eatChar '.' r7
  let (us, r9) ← readFrac r8
  let (off, r10) ← readOffset r9
  if r10.isEmpty then some (toInstant y mo d h mi ss us - minutesUs off) else none

/-- Model of `datetime.strptime` with format `%Y-%m-%d %H:%M:%S%z`, as a UTC instant. -/
def strptimeSecZ (s : String) : Option Int := do
  let (y, mo, d, r1) ← parseDateCore s.data
  let r2 ← eatChar ' ' r1
  let (h, r3) ← read12 0 23 r2
  let r4 ← eatChar ':' r3
  let (mi, r5) ← read12 0 59 r4
  let r6 ← eatChar ':' r5
  let (ss, r7) ← read12 0 59 r6
  let (off, r8) ← readOffset r7
  if r8.isEmpty then some (toInstant y mo d h mi ss 0 - minutesUs off) else none

/-- Model of the replacement of `Z` by `+00:00` performed before the isoformat
fallback: every `Z` is expanded. -/
def replaceZ : List Char → List Char
  | [] => []
  | 'Z' :: cs => '+' :: '0' :: '0' :: ':' :: '0' :: '0' :: replaceZ cs
  | c :: cs => c :: replaceZ cs

def isoFinish (y mo d hh mi ss us : Nat) : List Char → Option (Int × Option Int)
  | [] => some (toInstant y mo d hh mi ss us, none)
  | cs => do
    let (off, rest) ← readOffsetIso cs
    if rest.isEmpty then some (toInstant y mo d hh mi ss us, some off) else none

def isoAfterSec (y mo d hh mi ss : Nat) : List Char → Option (Int × Option Int)
  | '.' :: cs =>
    let p := takeDigitsUpTo 7 cs
    if p.1.length = 3 ∨ p.1.length = 6 then
      isoFinish y mo d hh mi ss (digitsToNat p.1 * 10 ^ (6 - p.1.length)) p.2
    else none
  | cs => isoFinish y mo d hh mi ss 0 cs

def isoTail (y mo d hh mi : Nat) : List Char → Option (Int × Option Int)
  | ':' :: cs => do
    let (ss, rest) ← read2Fixed cs
    if ss ≤ 59 then isoAfterSec y mo d hh mi ss rest else none
  | cs => isoFinish y mo d hh mi 0 0 cs

/-- Model of `datetime.fromisoformat`: strict `YYYY-MM-DD`, then optionally a separator
character and `HH:MM[:SS[.fff or .ffffff]][±HH:MM]`.  Returns the naive
instant together with the explicit offset when one is present. -/
def fromisoModel (cs : List Char) : Option (Int × Option Int) := do
  let (y, r1) ← read4Fixed cs
  let r2 ← eatChar '-' r1
  let (mo, r3) ← read2Fixed r2
  let r4 ← eatChar '-' r3
  let (d, r5) ← read2Fixed r4
  if 1 ≤ y ∧ 1 ≤ mo ∧ mo ≤ 12 ∧ 1 ≤ d ∧ d ≤ daysInMonth y mo then
    match r5 with
    | [] => some (toInstant y mo d 0 0 0 0, none)
    | _sep :: r6 => do
      let (hh, r7) ← read2Fixed r6
      let r8 ← eatChar ':' r7
      let (mi, r9) ← read2Fixed r8
      if hh ≤ 23 ∧ mi ≤ 59 then isoTail y mo d hh mi r9 else none
  else none

/-- Third rung of the ladder (src/main.py:62-66):
`fromisoformat(str(v).replace('Z', '+00:00'))`, then a naive result is
assumed UTC and an aware result is converted to UTC. -/
def isoFallback (s : String) : Option Int :=
  match fromisoModel (replaceZ s.data) with
  | some (v, some off) => some (v - minutesUs off)
  | some (v, none) => some v
  | none => none

/-- The fixed fallback ladder of `check_reminders` (src/main.py:54-66): the
full-precision offset-aware format, then the offset-aware format without
sub-second precision, then the isoformat fallback. -/
def parse_remind_time (s : String) : Option Int :=
  match strptimeFullZ s with
  | some t => some t
  | none =>
    match strptimeSecZ s with
    | some t => some t
    | none => isoFallback s

/-- Model of the wall-clock parse `datetime.strptime` with format
`%Y-%m-%dT%H:%M` (src/main.py:194), as a
naive instant. -/
def parseWallClock (s : String) : Option Int := do
  let (y, mo, d, r1) ← parseDateCore s.data
  let r2 ← eatChar 'T' r1
  let (h, r3) ← read12 0 23 r2
  let r4 ← eatChar ':' r3
  let (mi, r5) ← read12 0 59 r4
  if r5.isEmpty then some (toInstant y mo d h mi 0 0) else none

/-! ### Data model (src/database.py) -/

/-- A stored timestamp: sqlite hands back TIMESTAMP columns as text, but
`check_reminders` also tolerates native datetime values
(the `isinstance` branch on `remind_time`, src/main.py:51-70). -/
inductive StoredTime
  | txt (s : String)
  | native (t : Int)
deriving DecidableEq

/-- One row of the `reminders` table (src/database.py:15-24). -/
structure Reminder where
  id : Nat
  message : String
  remind_time : StoredTime
  event_time : Option StoredTime
  target_user : String
  sent_status : Nat
deriving DecidableEq

/-- The `reminders` table plus the next AUTOINCREMENT key. -/
structure DB where
  rows : List Reminder
  nextId : Nat
deriving DecidableEq

/-- Model of `init_db` (src/database.py:12-26): an empty table; AUTOINCREMENT keys
start at 1. -/
def init_db : DB := { rows := [], nextId := 1 }

/-- Model of `add_reminder` (src/database.py:28-36): a single atomic INSERT with
`sent_status = 0`, returning `lastrowid`. -/
def add_reminder (db : DB) (message : String) (remind_time : StoredTime)
    (event_time : Option StoredTime) (target_user : String) : DB × Nat :=
  ({ rows := db.rows ++ [⟨db.nextId, message, remind_time, event_time, target_user, 0⟩],
     nextId := db.nextId + 1 }, db.nextId)

def charLtB (a b : Char) : Bool := decide (a.toNat < b.toNat)

/-- Code-point-wise lexicographic order on text, as sqlite compares TEXT. -/
def strLtB : List Char → List Char → Bool
  | [], [] => false
  | [], _ :: _ => true
  | _ :: _, [] => false
  | a :: as, b :: bs => charLtB a b || (a == b && strLtB as bs)

/-- sqlite collation for the ORDER BY: numeric values sort before text. -/
def storedTimeLt : StoredTime → StoredTime → Bool
  | .native a, .native b => decide (a < b)
  | .native _, .txt _ => true
  | .txt _, .native _ => false
  | .txt a, .txt b => strLtB a.data b.data

def insertByTime (r : Reminder) : List Reminder → List Reminder
  | [] => [r]
  | x :: xs =>
    if storedTimeLt x.remind_time r.remind_time then x :: insertByTime r xs
    else r :: x :: xs

def sortByTime : List Reminder → List Reminder
  | [] => []
  | r :: rs => insertByTime r (sortByTime rs)

/-- Model of `get_pending_reminders` (src/database.py:38-47):
`SELECT * FROM reminders WHERE sent_status = 0 ORDER BY remind_time ASC`. -/
def get_pending_reminders (db : DB) : List Reminder :=
  sortByTime (db.rows.filter (fun r => r.sent_status == 0))

/-- Result vocabulary for `mark_reminder_sent`: the operation could in
principle report that no row carries the given id, or return normally. -/
inductive MarkResult
  | success
  | notFound
deriving DecidableEq

/-- Model of `mark_reminder_sent` (src/database.py:49-54):
`UPDATE reminders SET sent_status = 1 WHERE id = ?`.  The function commits and
returns without inspecting the affected row count, so it returns normally
(`success`) whether or not any row matched. -/
def mark_reminder_sent (db : DB) (reminder_id : Nat) : DB × MarkResult :=
  ({ db with rows := db.rows.map (fun r =>
      if r.id = reminder_id then { r with sent_status := 1 } else r) },
   .success)

/-! ### The submission handler (src/main.py:182-217) -/

structure Response where
  url : String
  status_code : Nat
deriving DecidableEq

/-- Model of `create_reminder` (src/main.py:182-217): parse the wall clock with
`strptime` on `%Y-%m-%dT%H:%M`, add `client_offset` minutes to reach UTC, make
it aware, subtract `offset_minutes` (the lead) for the remind time, insert the
row; a `ValueError` from the date parse is caught and only logged.  Both paths
return the same 303 redirect to `/`. -/
def create_reminder (message : String) (event_time : String) (offset_minutes : Int)
    (target_user : String) (client_offset : Int) (db : DB) : DB × Response :=
  match parseWallClock event_time with
  | some naive_et =>
    let utc_et := naive_et + minutesUs client_offset
    let utc_rt := utc_et - minutesUs offset_minutes
    ((add_reminder db message (.native utc_rt) (some (.native utc_et)) target_user).1,
     ⟨"/", 303⟩)
  | none => (db, ⟨"/", 303⟩)

/-! ### The scheduler tick (src/main.py:38-128) -/

/-- Environment of a tick: `DISCORD_CHANNEL_ID` (already converted by
`int(...)`, absent when the variable is unset or empty), whether
`bot.get_channel` finds the channel, and whether `channel.send` returns
normally (`true`) or raises (`false`) for a given reminder id. -/
structure TickEnv where
  channel_id : Option Int
  resolve : Int → Bool
  sendOk : Nat → Bool

/-- What happened to one pending reminder during a tick. -/
inductive ItemOutcome
  | skippedCorrupt
  | notDue
  | delivered
  | channelMissing
  | sendFailed
deriving DecidableEq

/-- The outcomes after which `database.mark_reminder_sent` is reached: the end
of the `try` block at src/main.py:123 runs after a successful send, and also
when the channel id is unset or `bot.get_channel` returned `None`. -/
def ItemOutcome.isMark : ItemOutcome → Bool
  | .delivered => true
  | .channelMissing => true
  | _ => false

/-- The outcomes in which the due branch (src/main.py:74) was entered, i.e.
the tick attempted delivery of the reminder. -/
def ItemOutcome.isAttempt : ItemOutcome → Bool
  | .delivered => true
  | .channelMissing => true
  | .sendFailed => true
  | _ => false

/-- The stored time as the scanner sees it: textual values go through the
parse ladder, native values are used as is (src/main.py:51-70). -/
def parsedTime : StoredTime → Option Int
  | .txt s => parse_remind_time s
  | .native t => some t

/-- The decision tree of one loop iteration of `check_reminders`
(src/main.py:49-125), independent of the store. -/
def itemOutcome (env : TickEnv) (now : Int) (r : Reminder) : ItemOutcome :=
  match parsedTime r.remind_time with
  | none => .skippedCorrupt
  | some t =>
    if t ≤ now then
      match env.channel_id with
      | some cid =>
        if env.resolve cid then
          if env.sendOk r.id then .delivered else .sendFailed
        else .channelMissing
      | none => .channelMissing
    else .notDue

/-- One loop iteration of `check_reminders` (src/main.py:49-125): parse the
stored time (`continue` on garbage), compare with `now`, resolve the channel,
send, and run `mark_reminder_sent` at the end of the `try` block; an exception
raised by `channel.send` is caught at src/main.py:124, skipping the mark. -/
def processOne (env : TickEnv) (now : Int) (db : DB) (r : Reminder) : DB × ItemOutcome :=
  match parsedTime r.remind_time with
  | none => (db, .skippedCorrupt)
  | some t =>
    if t ≤ now then
      match env.channel_id with
      | some cid =>
        if env.resolve cid then
          if env.sendOk r.id then ((mark_reminder_sent db r.id).1, .delivered)
          else (db, .sendFailed)
        else ((mark_reminder_sent db r.id).1, .channelMissing)
      | none => ((mark_reminder_sent db r.id).1, .channelMissing)
    else (db, .notDue)

/-- The loop over the pending rows, threading the store and logging the
outcome of each item in order. -/
def tickFold (env : TickEnv) (now : Int) : DB → List Reminder → DB × List (Nat × ItemOutcome)
  | db, [] => (db, [])
  | db, r :: rs =>
    let p := processOne env now db r
    let rest := tickFold env now p.1 rs
    (rest.1, (r.id, p.2) :: rest.2)

/-- Model of `check_reminders` (src/main.py:38-128): fetch the pending set once, then
process each row; per-item failures are caught inside the loop. -/
def check_reminders (env : TickEnv) (now : Int) (db : DB) : DB × List (Nat × ItemOutcome) :=
  tickFold env now db (get_pending_reminders db)

/-- Delivery status of the row with a given id (first match, as a keyed SELECT). -/
def statusOf (db : DB) (i : Nat) : Option Nat :=
  (db.rows.find? (fun r => r.id == i)).map (·.sent_status)

/-! ### Characterization of the tick -/

/-- Ids whose rows get `mark_reminder_sent` during a pass over `rs`. -/
def markedIds (env : TickEnv) (now : Int) (rs : List Reminder) : List Nat :=
  (rs.filter (fun r => (itemOutcome env now r).isMark)).map (·.id)

/-- Set `sent_status := 1` on the rows whose id lies in `ids`. -/
def updAll (ids : List Nat) (r : Reminder) : Reminder :=
  if r.id ∈ ids then { r with sent_status := 1 } else r

theorem updAll_nil (r : Reminder) : updAll [] r = r := by
  simp [updAll]

theorem updAll_id (ids : List Nat) (r : Reminder) : (updAll ids r).id = r.id := by
  unfold updAll; split <;> rfl

theorem map_updAll_nil (l : List Reminder) : l.map (updAll []) = l := by
  induction l with
  | nil => rfl
  | cons x xs ih => simp only [List.map, updAll_nil, ih]

theorem updAll_updAll (ids₁ ids₂ : List Nat) (r : Reminder) :
    updAll ids₂ (updAll ids₁ r) = updAll (ids₁ ++ ids₂) r := by
  unfold updAll
  by_cases h1 : r.id ∈ ids₁
  · by_cases h2 : r.id ∈ ids₂ <;> simp [h1, h2, List.mem_append]
  · by_cases h2 : r.id ∈ ids₂ <;> simp [h1, h2, List.mem_append]

theorem mark_as_map (db : DB) (i : Nat) :
    (mark_reminder_sent db i).1.rows = db.rows.map (updAll [i]) := by
  unfold mark_reminder_sent
  apply List.map_congr_left
  intro r _
  unfold updAll
  by_cases h : r.id = i <;> simp [h]

theorem processOne_eq (env : TickEnv) (now : Int) (db : DB) (r : Reminder) :
    processOne env now db r =
      (if (itemOutcome env now r).isMark then (mark_reminder_sent db r.id).1 else db,
       itemOutcome env now r) := by
  unfold processOne itemOutcome
  cases hp : parsedTime r.remind_time with
  | none => simp [ItemOutcome.isMark]
  | some t =>
    by_cases hd : t ≤ now
    · simp only [if_pos hd]
      cases env.channel_id with
      | none => simp [ItemOutcome.isMark]
      | some cid =>
        cases hres : env.resolve cid <;> cases hsend : env.sendOk r.id <;>
          simp [ItemOutcome.isMark, hres, hsend]
    · simp [if_neg hd, ItemOutcome.isMark]

theorem markedIds_cons (env : TickEnv) (now : Int) (r : Reminder) (rs : List Reminder) :
    markedIds env now (r :: rs) =
      (if (itemOutcome env now r).isMark then [r.id] else []) ++ markedIds env now rs := by
  unfold markedIds
  by_cases h : (itemOutcome env now r).isMark = true <;> simp [List.filter, h]

/-- The log of a tick records each processed row with its outcome, in order. -/
theorem tickFold_log (env : TickEnv) (now : Int) :
    ∀ (rs : List Reminder) (db : DB),
      (tickFold env now db rs).2 = rs.map (fun r => (r.id, itemOutcome env now r)) := by
  intro rs
  induction rs with
  | nil => intro db; rfl
  | cons r rs ih =>
    intro db
    simp only [tickFold, processOne_eq, ih, List.map]

/-- Effect of a tick on the table: exactly the rows whose pass ends in a
mark get `sent_status := 1`; nothing else changes. -/
theorem tickFold_rows (env : TickEnv) (now : Int) :
    ∀ (rs : List Reminder) (db : DB),
      (tickFold env now db rs).1.rows = db.rows.map (updAll (markedIds env now rs)) ∧
      (tickFold env now db rs).1.nextId = db.nextId := by
  intro rs
  induction rs with
  | nil =>
    intro db
    constructor
    · simp only [tickFold, markedIds, List.filter_nil, List.map_nil]
      exact (map_updAll_nil db.rows).symm
    · rfl
  | cons r rs ih =>
    intro db
    have hstep : (processOne env now db r).1.rows =
        db.rows.map (updAll (if (itemOutcome env now r).isMark then [r.id] else [])) ∧
        (processOne env now db r).1.nextId = db.nextId := by
      rw [processOne_eq]
      by_cases h : (itemOutcome env now r).isMark = true
      · simp only [h, if_pos]
        exact ⟨mark_as_map db r.id, rfl⟩
      · simp only [Bool.not_eq_true] at h
        simp only [h, Bool.false_eq_true, if_false]
        exact ⟨(map_updAll_nil db.rows).symm, trivial⟩
    constructor
    · have h1 := (ih (processOne env now db r).1).1
      simp only [tickFold]
      rw [h1, hstep.1, List.map_map, markedIds_cons]
      apply List.map_congr_left
      intro x _
      simp only [Function.comp]
      rw [updAll_updAll]
    · have h2 := (ih (processOne env now db r).1).2
      simp only [tickFold]
      rw [h2, hstep.2]

theorem check_reminders_log (env : TickEnv) (now : Int) (db : DB) :
    (check_reminders env now db).2 =
      (get_pending_reminders db).map (fun r => (r.id, itemOutcome env now r)) :=
  tickFold_log env now _ db

theorem check_reminders_rows (env : TickEnv) (now : Int) (db : DB) :
    (check_reminders env now db).1.rows =
      db.rows.map (updAll (markedIds env now (get_pending_reminders db))) :=
  (tickFold_rows env now _ db).1

/-! ### Membership lemmas for the pending scan -/

theorem mem_insertByTime (a r : Reminder) :
    ∀ l : List Reminder, a ∈ insertByTime r l ↔ a = r ∨ a ∈ l := by
  intro l
  induction l with
  | nil => simp [insertByTime]
  | cons x xs ih =>
    unfold insertByTime
    split
    · rw [List.mem_cons, ih, List.mem_cons]
      tauto
    · exact List.mem_cons

theorem mem_sortByTime (a : Reminder) :
    ∀ l : List Reminder, a ∈ sortByTime l ↔ a ∈ l := by
  intro l
  induction l with
  | nil => simp [sortByTime]
  | cons x xs ih =>
    unfold sortByTime
    rw [mem_insertByTime, ih]
    simp

theorem mem_pending (db : DB) (r : Reminder) :
    r ∈ get_pending_reminders db ↔ r ∈ db.rows ∧ r.sent_status = 0 := by
  unfold get_pending_reminders
  rw [mem_sortByTime, List.mem_filter]
  simp

/-! ### Lookup lemmas -/

theorem find?_map_updAll (ids : List Nat) (i : Nat) :
    ∀ l : List Reminder,
      (l.map (updAll ids)).find? (fun r => r.id == i) =
        (l.find? (fun r => r.id == i)).map (updAll ids) := by
  intro l
  induction l with
  | nil => rfl
  | cons x xs ih =>
    simp only [List.map, List.find?]
    rw [updAll_id]
    cases h : (x.id == i) <;> simp [h, ih]

theorem find?_exists {α : Type} (p : α → Bool) :
    ∀ l : List α, (∃ x ∈ l, p x = true) → ∃ y, l.find? p = some y ∧ p y = true := by
  intro l
  induction l with
  | nil => rintro ⟨x, hx, _⟩; cases hx
  | cons a as ih =>
    rintro ⟨x, hx, hpx⟩
    by_cases ha : p a = true
    · exact ⟨a, by simp [List.find?, ha], ha⟩
    · rcases List.mem_cons.mp hx with rfl | hxs
      · exact absurd hpx ha
      · rcases ih ⟨x, hxs, hpx⟩ with ⟨y, hy, hpy⟩
        refine ⟨y, ?_, hpy⟩
        simp only [List.find?]
        rw [Bool.of_not_eq_true ha]
        exact hy

theorem mem_markedIds (env : TickEnv) (now : Int) (rs : List Reminder) (i : Nat) :
    i ∈ markedIds env now rs ↔
      ∃ r ∈ rs, r.id = i ∧ (itemOutcome env now r).isMark = true := by
  unfold markedIds
  simp only [List.mem_map, List.mem_filter]
  constructor
  · rintro ⟨r, ⟨hr, hm⟩, rfl⟩
    exact ⟨r, hr, rfl, hm⟩
  · rintro ⟨r, hr, rfl, hm⟩
    exact ⟨r, ⟨hr, hm⟩, rfl⟩

theorem statusOf_tick (env : TickEnv) (now : Int) (db : DB) (i : Nat) :
    statusOf (check_reminders env now db).1 i =
      (db.rows.find? (fun r => r.id == i)).map
        (fun r => (updAll (markedIds env now (get_pending_reminders db)) r).sent_status) := by
  unfold statusOf
  rw [check_reminders_rows, find?_map_updAll]
  cases db.rows.find? (fun r => r.id == i) <;> rfl

theorem statusOf_tick_marked (env : TickEnv) (now : Int) (db : DB) (i : Nat)
    (hex : ∃ r ∈ db.rows, r.id = i)
    (hm : i ∈ markedIds env now (get_pending_reminders db)) :
    statusOf (check_reminders env now db).1 i = some 1 := by
  rw [statusOf_tick]
  rcases hex with ⟨r, hr, hid⟩
  rcases find?_exists (fun r => r.id == i) db.rows ⟨r, hr, by simp [hid]⟩ with ⟨y, hy, hpy⟩
  rw [hy]
  have hyid : y.id = i := by simpa using hpy
  simp only [Option.map]
  unfold updAll
  rw [hyid, if_pos hm]

theorem statusOf_tick_unmarked (env : TickEnv) (now : Int) (db : DB) (i : Nat)
    (hm : i ∉ markedIds env now (get_pending_reminders db)) :
    statusOf (check_reminders env now db).1 i = statusOf db i := by
  rw [statusOf_tick]
  unfold statusOf
  cases hf : db.rows.find? (fun r => r.id == i) with
  | none => rfl
  | some y =>
    have hyid : y.id = i := by
      have := List.find?_some hf
      simpa using this
    simp only [Option.map]
    unfold updAll
    rw [hyid, if_neg hm]

/-- With unique ids (the PRIMARY KEY invariant), a row of the table is the
only row carrying its id. -/
theorem row_eq_of_id_eq {db : DB} (h : (db.rows.map (·.id)).Nodup)
    {r r' : Reminder} (hr : r ∈ db.rows) (hr' : r' ∈ db.rows) (hid : r.id = r'.id) :
    r = r' :=
  List.inj_on_of_nodup_map h hr hr' hid

/-! ### Store operation lemmas -/

theorem find?_append_some {α : Type} (p : α → Bool) :
    ∀ (l l' : List α) (y : α), l.find? p = some y → (l ++ l').find? p = some y := by
  intro l
  induction l with
  | nil => intro l' y h; cases h
  | cons a as ih =>
    intro l' y h
    cases hpa : p a <;> simp only [List.cons_append, List.find?, hpa] at h ⊢
    · exact ih l' y h
    · exact h

theorem statusOf_add (db : DB) (message : String) (remind_time : StoredTime)
    (event_time : Option StoredTime) (target_user : String) (i : Nat) (s : Nat)
    (h : statusOf db i = some s) :
    statusOf (add_reminder db message remind_time event_time target_user).1 i = some s := by
  unfold statusOf at h ⊢
  cases hf : db.rows.find? (fun r => r.id == i) with
  | none => rw [hf] at h; cases h
  | some y =>
    rw [hf] at h
    unfold add_reminder
    rw [find?_append_some _ _ _ _ hf]
    exact h

theorem statusOf_mark (db : DB) (j i : Nat) :
    statusOf (mark_reminder_sent db j).1 i =
      (db.rows.find? (fun r => r.id == i)).map (fun r => (updAll [j] r).sent_status) := by
  unfold statusOf
  rw [mark_as_map, find?_map_updAll]
  cases db.rows.find? (fun r => r.id == i) <;> rfl

theorem statusOf_mark_present (db : DB) (i : Nat) (h : ∃ r ∈ db.rows, r.id = i) :
    statusOf (mark_reminder_sent db i).1 i = some 1 := by
  rw [statusOf_mark]
  rcases h with ⟨r, hr, hid⟩
  rcases find?_exists (fun r => r.id == i) db.rows ⟨r, hr, by simp [hid]⟩ with ⟨y, hy, hpy⟩
  rw [hy]
  have hyid : y.id = i := by simpa using hpy
  simp only [Option.map]
  unfold updAll
  rw [hyid, if_pos (by simp : i ∈ [i])]

theorem mark_idem (db : DB) (i : Nat) :
    (mark_reminder_sent (mark_reminder_sent db i).1 i).1 = (mark_reminder_sent db i).1 := by
  have h : ((db.rows.map (fun r => if r.id = i then { r with sent_status := 1 } else r)).map
        (fun r => if r.id = i then { r with sent_status := 1 } else r)) =
      db.rows.map (fun r => if r.id = i then { r with sent_status := 1 } else r) := by
    rw [List.map_map]
    apply List.map_congr_left
    intro r _
    by_cases hr : r.id = i <;> simp [Function.comp, hr]
  exact congrArg (fun rows => ({ rows := rows, nextId := db.nextId } : DB)) h

/-! ### Outcome classification lemmas -/

theorem isMark_isAttempt (o : ItemOutcome) :
    o.isMark = true → o.isAttempt = true := by
  cases o <;> simp [ItemOutcome.isMark, ItemOutcome.isAttempt]

theorem isAttempt_iff (env : TickEnv) (now : Int) (r : Reminder) :
    (itemOutcome env now r).isAttempt = true ↔
      ∃ t, parsedTime r.remind_time = some t ∧ t ≤ now := by
  cases hp : parsedTime r.remind_time with
  | none =>
    apply iff_of_false
    · simp [itemOutcome, hp, ItemOutcome.isAttempt]
    · rintro ⟨t, ht, _⟩
      cases ht
  | some t =>
    by_cases hd : t ≤ now
    · apply iff_of_true _ ⟨t, rfl, hd⟩
      cases hc : env.channel_id with
      | none => simp [itemOutcome, hp, hd, hc, ItemOutcome.isAttempt]
      | some cid =>
        by_cases hres : env.resolve cid <;> by_cases hsend : env.sendOk r.id <;>
          simp [itemOutcome, hp, hd, hc, hres, hsend, ItemOutcome.isAttempt]
    · apply iff_of_false
      · simp [itemOutcome, hp, hd, ItemOutcome.isAttempt]
      · rintro ⟨t', ht', hle⟩
        cases ht'
        exact hd hle

theorem itemOutcome_delivered (env : TickEnv) (now : Int) (r : Reminder) (t : Int)
    (hp : parsedTime r.remind_time = some t) (hd : t ≤ now) (cid : Int)
    (hc : env.channel_id = some cid) (hres : env.resolve cid = true)
    (hsend : env.sendOk r.id = true) :
    itemOutcome env now r = .delivered := by
  simp [itemOutcome, hp, hd, hc, hres, hsend]

theorem itemOutcome_channelMissing (env : TickEnv) (now : Int) (r : Reminder) (t : Int)
    (hp : parsedTime r.remind_time = some t) (hd : t ≤ now)
    (hch : env.channel_id = none ∨
      ∃ cid, env.channel_id = some cid ∧ env.resolve cid = false) :
    itemOutcome env now r = .channelMissing := by
  rcases hch with hch | ⟨cid, hc, hres⟩
  · simp [itemOutcome, hp, hd, hch]
  · simp [itemOutcome, hp, hd, hc, hres]

theorem itemOutcome_corrupt (env : TickEnv) (now : Int) (r : Reminder)
    (hp : parsedTime r.remind_time = none) :
    itemOutcome env now r = .skippedCorrupt := by
  simp [itemOutcome, hp]

theorem mem_log_iff (env : TickEnv) (now : Int) (db : DB) (i : Nat) (o : ItemOutcome) :
    (i, o) ∈ (check_reminders env now db).2 ↔
      ∃ r ∈ get_pending_reminders db, r.id = i ∧ itemOutcome env now r = o := by
  rw [check_reminders_log]
  simp only [List.mem_map, Prod.mk.injEq]

theorem updAll_sent_of_one (ids : List Nat) (r : Reminder) (h : r.sent_status = 1) :
    (updAll ids r).sent_status = 1 := by
  unfold updAll; split <;> simp [h]

/-- Column invariant of the schema: `sent_status` is `0|1`. -/
def statusWF (db : DB) : Prop :=
  ∀ r ∈ db.rows, r.sent_status = 0 ∨ r.sent_status = 1

/-! ### Claims -/

/-- Claim C10: every POST submission — record created or date parse failed
with ValueError — returns the identical 303 redirect to `/`, so the HTTP
response never distinguishes the two. -/
theorem C10_redirect_identical (message event_time : String) (offset_minutes : Int)
    (target_user : String) (client_offset : Int) (db : DB) :
    (create_reminder message event_time offset_minutes target_user client_offset db).2 =
      ⟨"/", 303⟩ := by
  unfold create_reminder
  cases parseWallClock event_time <;> rfl

/-- Claim C2: for a valid submission the stored `event_time` is the naive
wall clock plus `client_offset` minutes, the stored `remind_time` is
`event_time` minus the lead, so their difference is exactly the lead; and the
concrete example of the spec: wall clock 2023-10-27T14:30, offset +300, lead 30
gives eventAt 2023-10-27 19:30 UTC and dueAt 2023-10-27 19:00 UTC. -/
theorem C2_normalization (message event_time target_user : String)
    (offset_minutes client_offset : Int) (db : DB) (t : Int)
    (hp : parseWallClock event_time = some t) :
    (create_reminder message event_time offset_minutes target_user client_offset db).1.rows =
      db.rows ++ [⟨db.nextId, message,
        .native (t + minutesUs client_offset - minutesUs offset_minutes),
        some (.native (t + minutesUs client_offset)), target_user, 0⟩] ∧
    (t + minutesUs client_offset) - (t + minutesUs client_offset - minutesUs offset_minutes) =
      minutesUs offset_minutes ∧
    parseWallClock "2023-10-27T14:30" = some (toInstant 2023 10 27 14 30 0 0) ∧
    toInstant 2023 10 27 14 30 0 0 + minutesUs 300 = toInstant 2023 10 27 19 30 0 0 ∧
    toInstant 2023 10 27 19 30 0 0 - minutesUs 30 = toInstant 2023 10 27 19 0 0 0 := by
  refine ⟨?_, by ring, by decide, by decide, by decide⟩
  unfold create_reminder
  rw [hp]
  rfl

theorem C2_witness :
    (create_reminder "Meeting" "2023-10-27T14:30" 30 "u1" 300 init_db).1.rows =
      init_db.rows ++ [⟨init_db.nextId, "Meeting",
        .native (toInstant 2023 10 27 14 30 0 0 + minutesUs 300 - minutesUs 30),
        some (.native (toInstant 2023 10 27 14 30 0 0 + minutesUs 300)), "u1", 0⟩] :=
  (C2_normalization "Meeting" "2023-10-27T14:30" "u1" 30 300 init_db
      (toInstant 2023 10 27 14 30 0 0) (by decide)).1

/-- Claim C3 counterexample: a submission whose wall clock is well-formed but
whose client offset is far beyond 24 hours (100000 minutes) is NOT rejected:
a record is created, contradicting the claim that out-of-bound offsets fail
with InvalidInput without persisting. -/
theorem C3_counterexample :
    (1440 : Int) < 100000 ∧
    (create_reminder "m" "2023-10-27T14:30" 30 "u" 100000 init_db).1.rows.length = 1 := by
  constructor
  · decide
  · decide

/-- Claim C3 (amended): the submission leaves the store untouched exactly
when the wall-clock string fails to parse; no bound check is applied to the
lead or the client offset, and an unparsable wall clock persists nothing. -/
theorem C3_invalid_input_no_record (message event_time : String) (offset_minutes : Int)
    (target_user : String) (client_offset : Int) (db : DB) :
    (create_reminder message event_time offset_minutes target_user client_offset db).1 = db ↔
      parseWallClock event_time = none := by
  unfold create_reminder
  cases hp : parseWallClock event_time with
  | none => simp
  | some t =>
    simp only [reduceCtorEq, iff_false]
    intro he
    have hnext := congrArg DB.nextId he
    simp only [add_reminder] at hnext
    omega

/-- Claim C9 counterexample: marking an id that no stored reminder carries
(the store is empty) returns success, not NotFound. -/
theorem C9_counterexample :
    init_db.rows = [] ∧
    (mark_reminder_sent init_db 5).2 = MarkResult.success ∧
    MarkResult.success ≠ MarkResult.notFound ∧
    (mark_reminder_sent init_db 5).1 = init_db := by
  refine ⟨rfl, rfl, by decide, rfl⟩

/-- Claim C9 (amended): `mark_reminder_sent` on an id for which no reminder
exists returns success (the UPDATE affects no row and the row count is never
inspected) and leaves the store unchanged — it never reports NotFound. -/
theorem C9_markSent_missing_silent (db : DB) (i : Nat)
    (h : ∀ r ∈ db.rows, r.id ≠ i) :
    (mark_reminder_sent db i).2 = MarkResult.success ∧
    (mark_reminder_sent db i).1 = db := by
  refine ⟨rfl, ?_⟩
  have hrows : db.rows.map (fun r => if r.id = i then { r with sent_status := 1 } else r) =
      db.rows := by
    have hcg : ∀ r ∈ db.rows,
        (if r.id = i then { r with sent_status := 1 } else r) = r := by
      intro r hr
      rw [if_neg (h r hr)]
    calc db.rows.map (fun r => if r.id = i then { r with sent_status := 1 } else r)
        = db.rows.map (fun r => r) := List.map_congr_left hcg
      _ = db.rows := List.map_id' db.rows
  exact congrArg (fun rows => ({ rows := rows, nextId := db.nextId } : DB)) hrows

theorem C9_witness :
    (mark_reminder_sent ⟨[⟨1, "m", .native 0, none, "u", 0⟩], 2⟩ 5).2 = MarkResult.success ∧
    (mark_reminder_sent ⟨[⟨1, "m", .native 0, none, "u", 0⟩], 2⟩ 5).1 =
      ⟨[⟨1, "m", .native 0, none, "u", 0⟩], 2⟩ :=
  C9_markSent_missing_silent ⟨[⟨1, "m", .native 0, none, "u", 0⟩], 2⟩ 5 (by decide)

/-- Claim C8: for a reminder present in the store, marking it sent twice
never errors, leaves status Sent after each call, and the second call is a
no-op on the store. -/
theorem C8_markSent_idempotent (db : DB) (i : Nat) (h : ∃ r ∈ db.rows, r.id = i) :
    (mark_reminder_sent db i).2 = MarkResult.success ∧
    (mark_reminder_sent (mark_reminder_sent db i).1 i).2 = MarkResult.success ∧
    statusOf (mark_reminder_sent db i).1 i = some 1 ∧
    (mark_reminder_sent (mark_reminder_sent db i).1 i).1 = (mark_reminder_sent db i).1 ∧
    statusOf (mark_reminder_sent (mark_reminder_sent db i).1 i).1 i = some 1 := by
  refine ⟨rfl, rfl, statusOf_mark_present db i h, mark_idem db i, ?_⟩
  rw [mark_idem]
  exact statusOf_mark_present db i h

theorem C8_witness :
    statusOf (mark_reminder_sent ⟨[⟨1, "m", .native 0, none, "u", 0⟩], 2⟩ 1).1 1 = some 1 ∧
    (mark_reminder_sent (mark_reminder_sent ⟨[⟨1, "m", .native 0, none, "u", 0⟩], 2⟩ 1).1 1).1 =
      (mark_reminder_sent ⟨[⟨1, "m", .native 0, none, "u", 0⟩], 2⟩ 1).1 := by
  have h := C8_markSent_idempotent ⟨[⟨1, "m", .native 0, none, "u", 0⟩], 2⟩ 1
    ⟨⟨1, "m", .native 0, none, "u", 0⟩, by decide, rfl⟩
  exact ⟨h.2.2.1, h.2.2.2.1⟩

/-- Claim C7: the status of a reminder is monotonic across store operations:
`add_reminder` never changes the status of an existing row, `mark_reminder_sent`
never reverts Sent to Pending, and the only transition it performs on an
existing row is Pending to Sent. -/
theorem C7_status_monotonic :
    (∀ db message remind_time event_time target_user i s, statusOf db i = some s →
        statusOf (add_reminder db message remind_time event_time target_user).1 i = some s) ∧
    (∀ db j i, statusOf db i = some 1 →
        statusOf (mark_reminder_sent db j).1 i = some 1) ∧
    (∀ db j i, statusWF db →
        statusOf (mark_reminder_sent db j).1 i = statusOf db i ∨
        (statusOf db i = some 0 ∧ statusOf (mark_reminder_sent db j).1 i = some 1)) := by
  refine ⟨?_, ?_, ?_⟩
  · intro db message remind_time event_time target_user i s h
    exact statusOf_add db message remind_time event_time target_user i s h
  · intro db j i h
    rw [statusOf_mark]
    unfold statusOf at h
    cases hf : db.rows.find? (fun r => r.id == i) with
    | none => rw [hf] at h; cases h
    | some y =>
      rw [hf] at h
      simp only [Option.map] at h ⊢
      have hy1 : y.sent_status = 1 := by injection h
      rw [updAll_sent_of_one [j] y hy1]
  · intro db j i hwf
    rw [statusOf_mark]
    unfold statusOf
    cases hf : db.rows.find? (fun r => r.id == i) with
    | none => left; rfl
    | some y =>
      simp only [Option.map]
      have hymem : y ∈ db.rows := List.mem_of_find?_eq_some hf
      unfold updAll
      by_cases hj : y.id ∈ [j]
      · rw [if_pos hj]
        rcases hwf y hymem with h0 | h1
        · right; exact ⟨by rw [h0], rfl⟩
        · left; rw [h1]
      · rw [if_neg hj]
        left; rfl

theorem C7_witness :
    statusOf (add_reminder ⟨[⟨1, "m", .native 0, none, "u", 1⟩], 2⟩ "n" (.native 5) none "v").1 1 =
      some 1 ∧
    statusOf (mark_reminder_sent ⟨[⟨1, "m", .native 0, none, "u", 1⟩], 2⟩ 2).1 1 = some 1 ∧
    (statusOf (mark_reminder_sent ⟨[⟨1, "m", .native 0, none, "u", 0⟩], 2⟩ 1).1 1 =
        statusOf ⟨[⟨1, "m", .native 0, none, "u", 0⟩], 2⟩ 1 ∨
      (statusOf ⟨[⟨1, "m", .native 0, none, "u", 0⟩], 2⟩ 1 = some 0 ∧
        statusOf (mark_reminder_sent ⟨[⟨1, "m", .native 0, none, "u", 0⟩], 2⟩ 1).1 1 = some 1)) := by
  refine ⟨?_, ?_, ?_⟩
  · exact C7_status_monotonic.1 ⟨[⟨1, "m", .native 0, none, "u", 1⟩], 2⟩ "n" (.native 5) none "v"
      1 1 (by decide)
  · exact C7_status_monotonic.2.1 ⟨[⟨1, "m", .native 0, none, "u", 1⟩], 2⟩ 2 1 (by decide)
  · exact C7_status_monotonic.2.2 ⟨[⟨1, "m", .native 0, none, "u", 0⟩], 2⟩ 1 1
      (by intro r hr; simp at hr; simp [hr])

/-! ### Uniqueness lemmas under the PRIMARY KEY invariant -/

theorem statusOf_eq_of_mem_nodup (db : DB) (hids : (db.rows.map (·.id)).Nodup)
    (r : Reminder) (hr : r ∈ db.rows) : statusOf db r.id = some r.sent_status := by
  unfold statusOf
  rcases find?_exists (fun x => x.id == r.id) db.rows ⟨r, hr, by simp⟩ with ⟨y, hy, hpy⟩
  rw [hy]
  have hyr : y = r :=
    row_eq_of_id_eq hids (List.mem_of_find?_eq_some hy) hr (by simpa using hpy)
  rw [hyr]
  rfl

theorem log_outcome_of_nodup (env : TickEnv) (now : Int) (db : DB)
    (hids : (db.rows.map (·.id)).Nodup) (r : Reminder) (hr : r ∈ db.rows)
    (o : ItemOutcome) (hlog : (r.id, o) ∈ (check_reminders env now db).2) :
    o = itemOutcome env now r := by
  rcases (mem_log_iff env now db r.id o).mp hlog with ⟨r', hr', hid, ho⟩
  have hr'rows : r' ∈ db.rows := ((mem_pending db r').mp hr').1
  have : r' = r := row_eq_of_id_eq hids hr'rows hr hid
  rw [← this]
  exact ho.symm

theorem not_marked_of_nodup (env : TickEnv) (now : Int) (db : DB)
    (hids : (db.rows.map (·.id)).Nodup) (r : Reminder) (hr : r ∈ db.rows)
    (hnm : (itemOutcome env now r).isMark = false) :
    r.id ∉ markedIds env now (get_pending_reminders db) := by
  intro hm
  rcases (mem_markedIds env now _ r.id).mp hm with ⟨r', hr', hid, hmark⟩
  have hr'rows : r' ∈ db.rows := ((mem_pending db r').mp hr').1
  have heq : r' = r := row_eq_of_id_eq hids hr'rows hr hid
  rw [heq, hnm] at hmark
  cases hmark

/-- The tick attempted delivery of id `i`: some log entry for `i` entered the
due branch. -/
def attempted (env : TickEnv) (now : Int) (db : DB) (i : Nat) : Prop :=
  ∃ o, (i, o) ∈ (check_reminders env now db).2 ∧ o.isAttempt = true

/-- Claim C4: a tick attempts delivery exactly for the Pending reminders
whose parsed due instant is at or before `now`; a Pending reminder whose
parsed remind time is strictly later than `now` is neither delivered nor
marked Sent. -/
theorem C4_scan_due_exactly (env : TickEnv) (now : Int) (db : DB)
    (hids : (db.rows.map (·.id)).Nodup) :
    (∀ i, attempted env now db i ↔
        ∃ r ∈ db.rows, r.sent_status = 0 ∧ r.id = i ∧
          ∃ t, parsedTime r.remind_time = some t ∧ t ≤ now) ∧
    (∀ r t, r ∈ db.rows → r.sent_status = 0 → parsedTime r.remind_time = some t →
        now < t →
        (r.id, ItemOutcome.delivered) ∉ (check_reminders env now db).2 ∧
        statusOf (check_reminders env now db).1 r.id = some 0) := by
  constructor
  · intro i
    constructor
    · rintro ⟨o, hlog, hatt⟩
      rcases (mem_log_iff env now db i o).mp hlog with ⟨r, hrp, hid, ho⟩
      have hrr := (mem_pending db r).mp hrp
      refine ⟨r, hrr.1, hrr.2, hid, ?_⟩
      exact (isAttempt_iff env now r).mp (by rw [ho]; exact hatt)
    · rintro ⟨r, hr, h0, hid, ht⟩
      exact ⟨itemOutcome env now r,
        (mem_log_iff env now db i _).mpr ⟨r, (mem_pending db r).mpr ⟨hr, h0⟩, hid, rfl⟩,
        (isAttempt_iff env now r).mpr ht⟩
  · intro r t hr h0 hp hlt
    have hnm : (itemOutcome env now r).isMark = false := by
      cases hmark : (itemOutcome env now r).isMark
      · rfl
      · exfalso
        rcases (isAttempt_iff env now r).mp (isMark_isAttempt _ hmark) with ⟨t', ht', hle⟩
        rw [hp] at ht'
        injection ht' with ht''
        rw [ht''] at hlt
        exact absurd hle (not_le.mpr hlt)
    have hnotm := not_marked_of_nodup env now db hids r hr hnm
    constructor
    · intro hdel
      have hde := log_outcome_of_nodup env now db hids r hr _ hdel
      rw [← hde] at hnm
      cases hnm
    · rw [statusOf_tick_unmarked env now db r.id hnotm,
        statusOf_eq_of_mem_nodup db hids r hr, h0]

theorem C4_witness :
    (1, ItemOutcome.delivered) ∉ (check_reminders ⟨some 7, fun _ => true, fun _ => true⟩ 0
        ⟨[⟨1, "m", .native 100, none, "u", 0⟩], 2⟩).2 ∧
    statusOf (check_reminders ⟨some 7, fun _ => true, fun _ => true⟩ 0
        ⟨[⟨1, "m", .native 100, none, "u", 0⟩], 2⟩).1 1 = some 0 :=
  (C4_scan_due_exactly ⟨some 7, fun _ => true, fun _ => true⟩ 0
      ⟨[⟨1, "m", .native 100, none, "u", 0⟩], 2⟩ (by decide)).2
    ⟨1, "m", .native 100, none, "u", 0⟩ 100 (by decide) rfl rfl (by decide)

/-- Claim C1 counterexample: with no channel configured, a due Pending
reminder is still marked Sent by the tick (and nothing was delivered),
contradicting the claim that it stays Pending and is retried. -/
theorem C1_counterexample :
    (⟨[⟨1, "task", .native 0, none, "u", 0⟩], 2⟩ : DB).rows.map (·.sent_status) = [0] ∧
    (check_reminders ⟨none, fun _ => false, fun _ => false⟩ 0
        ⟨[⟨1, "task", .native 0, none, "u", 0⟩], 2⟩).1.rows.map (·.sent_status) = [1] ∧
    (1, ItemOutcome.delivered) ∉ (check_reminders ⟨none, fun _ => false, fun _ => false⟩ 0
        ⟨[⟨1, "task", .native 0, none, "u", 0⟩], 2⟩).2 := by
  refine ⟨rfl, rfl, by decide⟩

/-- Claim C1 (amended): when the channel cannot be resolved (unset channel
id, or the lookup returns none) the tick logs a warning and still calls
markSent at the end of the try block: the due reminder is marked Sent with no
delivery, and is therefore not retried; markSent is skipped only when the
send itself raises. -/
theorem C1_channel_unresolved_marks_sent (env : TickEnv) (now : Int) (db : DB)
    (r : Reminder) (t : Int) (hids : (db.rows.map (·.id)).Nodup)
    (hr : r ∈ db.rows) (h0 : r.sent_status = 0)
    (hp : parsedTime r.remind_time = some t) (hd : t ≤ now)
    (hch : env.channel_id = none ∨
      ∃ cid, env.channel_id = some cid ∧ env.resolve cid = false) :
    statusOf (check_reminders env now db).1 r.id = some 1 ∧
    (r.id, ItemOutcome.delivered) ∉ (check_reminders env now db).2 := by
  have hout : itemOutcome env now r = .channelMissing :=
    itemOutcome_channelMissing env now r t hp hd hch
  constructor
  · exact statusOf_tick_marked env now db r.id ⟨r, hr, rfl⟩
      ((mem_markedIds env now _ r.id).mpr
        ⟨r, (mem_pending db r).mpr ⟨hr, h0⟩, rfl, by rw [hout]; rfl⟩)
  · intro hdel
    have hde := log_outcome_of_nodup env now db hids r hr _ hdel
    rw [hout] at hde
    cases hde

theorem C1_witness :
    statusOf (check_reminders ⟨none, fun _ => false, fun _ => false⟩ 5
        ⟨[⟨1, "task", .native 3, none, "u", 0⟩], 2⟩).1 1 = some 1 :=
  (C1_channel_unresolved_marks_sent ⟨none, fun _ => false, fun _ => false⟩ 5
      ⟨[⟨1, "task", .native 3, none, "u", 0⟩], 2⟩ ⟨1, "task", .native 3, none, "u", 0⟩ 3
      (by decide) (by decide) rfl rfl (by decide) (Or.inl rfl)).1

/-- Claim C6: failure of one reminder (corrupt timestamp, or an exception
while sending) never prevents another due, parseable, deliverable reminder of
the same tick from being delivered and marked Sent; and the tick processes
every pending row, never aborting. -/
theorem C6_per_item_isolation (env : TickEnv) (now : Int) (db : DB) (r : Reminder)
    (t : Int) (cid : Int) (hr : r ∈ db.rows) (h0 : r.sent_status = 0)
    (hp : parsedTime r.remind_time = some t) (hd : t ≤ now)
    (hc : env.channel_id = some cid) (hres : env.resolve cid = true)
    (hsend : env.sendOk r.id = true) :
    (r.id, ItemOutcome.delivered) ∈ (check_reminders env now db).2 ∧
    statusOf (check_reminders env now db).1 r.id = some 1 ∧
    (check_reminders env now db).2.map Prod.fst = (get_pending_reminders db).map (·.id) := by
  have hout := itemOutcome_delivered env now r t hp hd cid hc hres hsend
  refine ⟨?_, ?_, ?_⟩
  · exact (mem_log_iff env now db r.id _).mpr
      ⟨r, (mem_pending db r).mpr ⟨hr, h0⟩, rfl, hout⟩
  · exact statusOf_tick_marked env now db r.id ⟨r, hr, rfl⟩
      ((mem_markedIds env now _ r.id).mpr
        ⟨r, (mem_pending db r).mpr ⟨hr, h0⟩, rfl, by rw [hout]; rfl⟩)
  · rw [check_reminders_log, List.map_map]
    rfl

theorem C6_witness :
    (3, ItemOutcome.delivered) ∈ (check_reminders ⟨some 7, fun _ => true, fun i => i == 3⟩ 0
        ⟨[⟨1, "a", .txt "garbage", none, "u", 0⟩, ⟨2, "b", .native 0, none, "u", 0⟩,
          ⟨3, "c", .native 0, none, "u", 0⟩], 4⟩).2 ∧
    statusOf (check_reminders ⟨some 7, fun _ => true, fun i => i == 3⟩ 0
        ⟨[⟨1, "a", .txt "garbage", none, "u", 0⟩, ⟨2, "b", .native 0, none, "u", 0⟩,
          ⟨3, "c", .native 0, none, "u", 0⟩], 4⟩).1 3 = some 1 := by
  have h := C6_per_item_isolation ⟨some 7, fun _ => true, fun i => i == 3⟩ 0
      ⟨[⟨1, "a", .txt "garbage", none, "u", 0⟩, ⟨2, "b", .native 0, none, "u", 0⟩,
        ⟨3, "c", .native 0, none, "u", 0⟩], 4⟩ ⟨3, "c", .native 0, none, "u", 0⟩ 0 7
      (by decide) rfl rfl (by decide) rfl rfl rfl
  exact ⟨h.1, h.2.1⟩

/-- Claim C5: the textual parse of the scanner is the fixed ladder — full-precision
offset-aware, then offset-aware without sub-second precision, then the
isoformat fallback that assumes naive values are UTC — and a value matching no
rung is skipped without delivery, its row staying Pending for the next tick. -/
theorem C5_parse_fallback_ladder :
    (∀ s t, strptimeFullZ s = some t → parse_remind_time s = some t) ∧
    (∀ s t, strptimeFullZ s = none → strptimeSecZ s = some t →
        parse_remind_time s = some t) ∧
    (∀ s, strptimeFullZ s = none → strptimeSecZ s = none →
        parse_remind_time s = isoFallback s) ∧
    (∀ env now db r s, (db.rows.map (·.id)).Nodup → r ∈ db.rows → r.sent_status = 0 →
        r.remind_time = .txt s → parse_remind_time s = none →
        ((∀ o, (r.id, o) ∈ (check_reminders env now db).2 → o = ItemOutcome.skippedCorrupt) ∧
         statusOf (check_reminders env now db).1 r.id = some 0 ∧
         r ∈ get_pending_reminders (check_reminders env now db).1)) := by
  refine ⟨?_, ?_, ?_, ?_⟩
  · intro s t h
    unfold parse_remind_time
    rw [h]
  · intro s t h1 h2
    unfold parse_remind_time
    rw [h1, h2]
  · intro s h1 h2
    unfold parse_remind_time
    rw [h1, h2]
  · intro env now db r s hids hr h0 hrt hparse
    have hp : parsedTime r.remind_time = none := by
      rw [hrt]
      exact hparse
    have hout := itemOutcome_corrupt env now r hp
    have hnm : (itemOutcome env now r).isMark = false := by rw [hout]; rfl
    have hnotm := not_marked_of_nodup env now db hids r hr hnm
    refine ⟨?_, ?_, ?_⟩
    · intro o hlog
      rw [log_outcome_of_nodup env now db hids r hr o hlog, hout]
    · rw [statusOf_tick_unmarked env now db r.id hnotm,
        statusOf_eq_of_mem_nodup db hids r hr, h0]
    · have hfix : updAll (markedIds env now (get_pending_reminders db)) r = r := by
        unfold updAll
        rw [if_neg hnotm]
      have hmem' : r ∈ (check_reminders env now db).1.rows := by
        rw [check_reminders_rows, ← hfix]
        exact List.mem_map_of_mem _ hr
      exact (mem_pending _ r).mpr ⟨hmem', h0⟩

theorem C5_witness :
    parse_remind_time "2023-10-27 19:30:00+00:00" = some (toInstant 2023 10 27 19 30 0 0) ∧
    statusOf (check_reminders ⟨some 7, fun _ => true, fun _ => true⟩ 0
        ⟨[⟨1, "m", .txt "not a timestamp", none, "u", 0⟩], 2⟩).1 1 = some 0 := by
  constructor
  · exact C5_parse_fallback_ladder.2.1 "2023-10-27 19:30:00+00:00"
      (toInstant 2023 10 27 19 30 0 0) (by decide) (by decide)
  · exact (C5_parse_fallback_ladder.2.2.2 ⟨some 7, fun _ => true, fun _ => true⟩ 0
      ⟨[⟨1, "m", .txt "not a timestamp", none, "u", 0⟩], 2⟩
      ⟨1, "m", .txt "not a timestamp", none, "u", 0⟩ "not a timestamp"
      (by decide) (by decide) rfl rfl (by decide)).2.1
